import Mathlib

/-!
Verification development for the EntertainmentTech USB MIDI firmware
(STM32H533RE + TinyUSB, one virtual MIDI cable, Full-Speed device).

The repository itself ships configuration (`tusb_config.h`), the port layer
(`tusb_port.c`) and documentation quoting the application code
(`usb_descriptors.c`, `main.c`); the protocol core (TinyUSB middleware) is
referenced as a git submodule and is not part of the source tree.  Components
whose code is absent are therefore modelled from the specification, as marked
in each doc comment.  Bytes are `Nat` values below 256; fixed-width overflow
does not arise because every operation here is nibble/byte extraction.
-/

namespace UsbMidi

/-- Configuration constants taken from `Core/Inc/tusb_config.h`:
`CFG_TUD_MIDI_RX_BUFSIZE = 64`. -/
def CFG_TUD_MIDI_RX_BUFSIZE : Nat := 64

/-- `CFG_TUD_MIDI_TX_BUFSIZE = 64` from `Core/Inc/tusb_config.h`. -/
def CFG_TUD_MIDI_TX_BUFSIZE : Nat := 64

/-- `CFG_TUD_ENDPOINT0_SIZE = 64` from `Core/Inc/tusb_config.h`. -/
def CFG_TUD_ENDPOINT0_SIZE : Nat := 64

/-- Bulk endpoint max packet size, 64 bytes (documentation step 6.2,
`TUD_MIDI_DESCRIPTOR(..., 64)`). -/
def EP_BULK_SIZE : Nat := 64

/-! ## MIDI Packetizer / Depacketizer

Modelled from the spec: the packetizer lives in the TinyUSB middleware
(`midi_device.c`), which is not under the source tree.  Spec section 4.4 and
documentation step 11 define it: the Code Index Number equals the status
byte's message-type nibble for channel-voice messages (Note Off 0x8, Note On
0x9, Control Change 0xB, Program Change 0xC, Channel Pressure 0xD, Pitch
Bend 0xE); Program Change and Channel Pressure carry 2 significant bytes,
the others 3; unused trailing packet bytes are zero-padded on encode and
ignored on decode; the cable number sits in the upper nibble of byte 0 and
only cable 0 is supported. -/

/-- Modelled from the spec: Code Index Number derived from the status byte's
upper nibble; returns `none` for message types the claims do not cover
(System Common/Exclusive). -/
def cinFor (status : Nat) : Option Nat :=
  if status / 16 = 0x8 ∨ status / 16 = 0x9 ∨ status / 16 = 0xB ∨
      status / 16 = 0xC ∨ status / 16 = 0xD ∨ status / 16 = 0xE then
    some (status / 16)
  else none

/-- Modelled from the spec: number of significant MIDI bytes for a
channel-voice Code Index Number (CIN 0xC Program Change and 0xD Channel
Pressure use 2 bytes, the rest 3). -/
def cinMsgLen (cin : Nat) : Nat :=
  if cin = 0xC ∨ cin = 0xD then 2 else 3

/-- Modelled from the spec: `tud_midi_stream_write` packetization (missing
TinyUSB `midi_device.c`).  A well-formed channel-voice MIDI message of its
CIN-defined length becomes the 4-byte USB-MIDI event packet
`[cable << 4 | cin, status, data1, data2]`, zero-padding unused trailing
bytes. -/
def midiEncode (cable : Nat) (msg : List Nat) : Option (List Nat) :=
  match msg with
  | status :: _ =>
    match cinFor status with
    | some cin =>
      if msg.length = cinMsgLen cin then
        some [cable % 16 * 16 + cin, status, msg.getD 1 0, msg.getD 2 0]
      else none
    | none => none
  | [] => none

/-- Modelled from the spec: depacketization of a received 4-byte USB-MIDI
event packet (missing TinyUSB `midi_device.c`).  The CIN selects how many of
bytes 1-3 form the outbound MIDI message; packets for cables other than the
single supported cable 0 are discarded as a non-fatal anomaly. -/
def midiDecode (pkt : List Nat) : Option (List Nat) :=
  match pkt with
  | [b0, b1, b2, b3] =>
    let cable := b0 / 16
    let cin := b0 % 16
    if cable ≠ 0 then none
    else if cin = 0x8 ∨ cin = 0x9 ∨ cin = 0xB ∨ cin = 0xE then some [b1, b2, b3]
    else if cin = 0xC ∨ cin = 0xD then some [b1, b2]
    else none
  | _ => none

/-- Claim C1: for every MIDI message whose type has a defined Code Index
Number (Note On, Note Off, Control Change, Program Change, Pitch Bend,
Channel Pressure), encoding the message on the supported cable 0 into a
4-byte USB-MIDI event packet and decoding that packet yields exactly the
original message bytes; the zero-padded trailing bytes are ignored by the
decoder. -/
theorem midi_encode_decode_roundtrip (msg pkt : List Nat)
    (h : midiEncode 0 msg = some pkt) : midiDecode pkt = some msg := by
  match msg with
  | [] => simp [midiEncode] at h
  | status :: rest =>
    simp only [midiEncode] at h
    rcases hcin : cinFor status with _ | cin
    · rw [hcin] at h; exact Option.noConfusion h
    · rw [hcin] at h
      dsimp only at h
      have hlen : (status :: rest).length = cinMsgLen cin := by
        by_contra hne
        rw [if_neg hne] at h
        exact Option.noConfusion h
      rw [if_pos hlen] at h
      have hpkt : pkt = [cin, status, (status :: rest).getD 1 0,
          (status :: rest).getD 2 0] := by
        simpa using (Option.some.inj h).symm
      have hmem : cin = 0x8 ∨ cin = 0x9 ∨ cin = 0xB ∨ cin = 0xC ∨ cin = 0xD ∨
          cin = 0xE := by
        unfold cinFor at hcin
        split at hcin
        · have heq := Option.some.inj hcin
          rename_i hq
          omega
        · exact Option.noConfusion hcin
      subst hpkt
      have hlen2 : rest.length + 1 = cinMsgLen cin := by simpa using hlen
      rcases hmem with hc | hc | hc | hc | hc | hc <;> subst hc <;>
        simp only [cinMsgLen] at hlen2 <;> norm_num at hlen2
      · obtain ⟨d1, d2, rfl⟩ := List.length_eq_two.mp (show rest.length = 2 by omega)
        rfl
      · obtain ⟨d1, d2, rfl⟩ := List.length_eq_two.mp (show rest.length = 2 by omega)
        rfl
      · obtain ⟨d1, d2, rfl⟩ := List.length_eq_two.mp (show rest.length = 2 by omega)
        rfl
      · obtain ⟨d1, rfl⟩ := List.length_eq_one.mp (show rest.length = 1 by omega)
        rfl
      · obtain ⟨d1, rfl⟩ := List.length_eq_one.mp (show rest.length = 1 by omega)
        rfl
      · obtain ⟨d1, d2, rfl⟩ := List.length_eq_two.mp (show rest.length = 2 by omega)
        rfl

/-- Witness for C1: the documentation's Note On message round-trips. -/
theorem midi_encode_decode_roundtrip_witness :
    midiEncode 0 [0x90, 0x3C, 0x64] = some [0x09, 0x90, 0x3C, 0x64] ∧
      midiDecode [0x09, 0x90, 0x3C, 0x64] = some [0x90, 0x3C, 0x64] :=
  ⟨by decide, midi_encode_decode_roundtrip [0x90, 0x3C, 0x64]
    [0x09, 0x90, 0x3C, 0x64] (by decide)⟩

/-! ## Descriptor Model -/

/-- Device descriptor bytes serialized from `desc_device` in
`usb_descriptors.c`, quoted in full in documentation step 6.1: bLength 18,
bDescriptorType 1 (device), bcdUSB 0x0200, bDeviceClass 0, bDeviceSubClass 0,
bDeviceProtocol 0, bMaxPacketSize0 64, idVendor 0xCAFE, idProduct 0x4001,
bcdDevice 0x0100, iManufacturer 1, iProduct 2, iSerialNumber 3,
bNumConfigurations 1.  Multi-byte fields are little-endian per USB. -/
def desc_device : List Nat :=
  [18, 1, 0x00, 0x02, 0x00, 0x00, 0x00, 64,
   0xFE, 0xCA, 0x01, 0x40, 0x00, 0x01, 0x01, 0x02, 0x03, 0x01]

/-- Modelled from the spec: the Descriptor Model accessor (missing TinyUSB
`usbd.c` + `usb_descriptors.c` callbacks).  Descriptor type 1 (device)
returns `desc_device`.  The configuration and string descriptors are also
implemented by the device, but their byte expansion comes from TinyUSB
macros absent from the source tree; no claim depends on their bytes, so
they are left out of this accessor and a request for them is not modelled. -/
def descriptorFor (descType : Nat) : Option (List Nat) :=
  if descType = 1 then some desc_device else none

/-! ## Enumeration State Machine

Modelled from the spec: the state machine lives in TinyUSB `usbd.c`, which
is not under the source tree.  Spec sections 3 and 4.2 define the states and
transitions; the Suspended flag is orthogonal to the main state. -/

/-- Device enumeration states of spec section 3 (Suspended is a separate
flag). -/
inductive DevState
  | Detached
  | Attached
  | Powered
  | Default
  | Addressed
  | Configured
  deriving DecidableEq

/-- Modelled from the spec: enumeration state with the orthogonal Suspended
flag and whether the bulk endpoints are active (activated only by
SET_CONFIGURATION with a nonzero value). -/
structure EnumState where
  dev : DevState
  suspended : Bool
  epActive : Bool
  deriving DecidableEq

/-- Control requests arriving in a setup packet, keyed by bRequest;
`unknownRequest` covers every bRequest value the device does not
recognize. -/
inductive CtrlRequest
  | getDescriptor (descType : Nat)
  | setAddress (addr : Nat)
  | setConfiguration (cfg : Nat)
  | unknownRequest (bRequest : Nat)
  deriving DecidableEq

/-- DCD-reported events dispatched to the enumeration state machine (spec
section 6). -/
inductive DcdEvent
  | busReset
  | setup (req : CtrlRequest)
  | suspendSig
  | resumeSig
  deriving DecidableEq

/-- Response on the control endpoint. -/
inductive CtrlResponse
  | dataResp (bytes : List Nat)
  | ack
  | stall
  | noResp
  deriving DecidableEq

/-- Modelled from the spec: the enumeration transition function of spec
section 4.2 (missing TinyUSB `usbd.c`).  Bus reset forces Default with
endpoints inactive; SET_ADDRESS while Default reaches Addressed;
SET_CONFIGURATION nonzero while Addressed or Configured reaches Configured
and activates the endpoints; SET_CONFIGURATION 0 returns to Addressed and
deactivates them; GET_DESCRIPTOR in any state at least Default is answered
from the Descriptor Model; Suspend and Resume toggle the orthogonal flag;
every other (unknown or malformed) request is answered with a protocol
STALL and leaves the state unchanged. -/
def enumStep (s : EnumState) (e : DcdEvent) : EnumState × CtrlResponse :=
  match e with
  | .busReset => ({ dev := .Default, suspended := false, epActive := false }, .noResp)
  | .suspendSig => ({ s with suspended := true }, .noResp)
  | .resumeSig => ({ s with suspended := false }, .noResp)
  | .setup req =>
    match req with
    | .getDescriptor t =>
      if s.dev = .Default ∨ s.dev = .Addressed ∨ s.dev = .Configured then
        match descriptorFor t with
        | some bytes => (s, .dataResp bytes)
        | none => (s, .stall)
      else (s, .stall)
    | .setAddress _ =>
      if s.dev = .Default then ({ s with dev := .Addressed }, .ack)
      else (s, .stall)
    | .setConfiguration c =>
      if s.dev = .Addressed ∨ s.dev = .Configured then
        if c = 0 then ({ s with dev := .Addressed, epActive := false }, .ack)
        else ({ s with dev := .Configured, epActive := true }, .ack)
      else (s, .stall)
    | .unknownRequest _ => (s, .stall)

/-! ## Endpoint Transfer Manager

Modelled from the spec: the transfer manager lives in TinyUSB
`midi_device.c` / `usbd.c` FIFOs, not under the source tree.  Spec sections
3 and 4.3 define it: a 64-byte RX ring buffer (`CFG_TUD_MIDI_RX_BUFSIZE`),
an armed flag for the bulk OUT endpoint, a busy flag and one-packet TX path
for the bulk IN endpoint.  A received packet is appended to the ring buffer
and the endpoint is re-armed only if a further full packet still fits;
otherwise it is left un-armed (backpressure) until the task-context reader
drains the buffer. -/

/-- Bulk OUT endpoint state: RX ring buffer contents plus whether the DCD
is armed to accept the next packet. -/
structure OutEpState where
  buf : List Nat
  armed : Bool
  deriving DecidableEq

/-- Bulk IN endpoint state: staged TX data plus the single in-flight busy
flag. -/
structure InEpState where
  txData : List Nat
  busy : Bool
  deriving DecidableEq

/-- OUT endpoint state on endpoint activation: empty buffer, armed for the
first receive. -/
def outInit : OutEpState := { buf := [], armed := true }

/-- IN endpoint state on endpoint activation: idle. -/
def inInit : InEpState := { txData := [], busy := false }

/-- Modelled from the spec: `available_read` returns the count of received
bytes ready for consumption. -/
def available_read (s : OutEpState) : Nat := s.buf.length

/-- Whether a whole further max-size packet still fits in the RX ring
buffer, which is the re-arm condition of spec section 4.3. -/
def outRearm (buf : List Nat) : Bool :=
  decide (buf.length + EP_BULK_SIZE ≤ CFG_TUD_MIDI_RX_BUFSIZE)

/-- Events touching the OUT endpoint: a DCD "data received" interrupt
carrying one packet, or the task-context reader draining bytes. -/
inductive OutEvent
  | recv (pkt : List Nat)
  | drain (n : Nat)

/-- Modelled from the spec: OUT endpoint transition (missing TinyUSB FIFO
code).  A packet is only delivered while the endpoint is armed (the DCD
cannot report data on an un-armed endpoint); it is appended whole to the
ring buffer, and the endpoint is re-armed only if space for a further
packet remains.  Draining removes consumed bytes and re-arms once space is
back. -/
def outStep (s : OutEpState) (e : OutEvent) : OutEpState :=
  match e with
  | .recv pkt =>
    if s.armed ∧ pkt.length ≤ EP_BULK_SIZE then
      { buf := s.buf ++ pkt, armed := outRearm (s.buf ++ pkt) }
    else s
  | .drain n =>
    { buf := s.buf.drop n, armed := outRearm (s.buf.drop n) }

/-- Reachable OUT endpoint states: from activation through any event
sequence. -/
inductive OutReachable : OutEpState → Prop
  | init : OutReachable outInit
  | step (s : OutEpState) (e : OutEvent) : OutReachable s → OutReachable (outStep s e)

/-- Ring buffer invariant: the buffer content plus, when armed, one further
max-size packet always fits in the declared capacity. -/
def OutInv (s : OutEpState) : Prop :=
  available_read s + (if s.armed then EP_BULK_SIZE else 0) ≤ CFG_TUD_MIDI_RX_BUFSIZE

lemma outInv_init : OutInv outInit := by
  simp [OutInv, outInit, available_read, EP_BULK_SIZE, CFG_TUD_MIDI_RX_BUFSIZE]

lemma outInv_of_rearm (buf : List Nat)
    (hlen : buf.length ≤ CFG_TUD_MIDI_RX_BUFSIZE) :
    OutInv { buf := buf, armed := outRearm buf } := by
  by_cases hr : buf.length + EP_BULK_SIZE ≤ CFG_TUD_MIDI_RX_BUFSIZE <;>
    simp [OutInv, available_read, outRearm, hr, hlen]

lemma outInv_step (s : OutEpState) (e : OutEvent) (h : OutInv s) :
    OutInv (outStep s e) := by
  have hcap : s.buf.length ≤ CFG_TUD_MIDI_RX_BUFSIZE := by
    unfold OutInv available_read at h
    split at h <;> omega
  cases e with
  | recv pkt =>
    show OutInv (if s.armed ∧ pkt.length ≤ EP_BULK_SIZE then
      { buf := s.buf ++ pkt, armed := outRearm (s.buf ++ pkt) } else s)
    split
    · rename_i hg
      apply outInv_of_rearm
      have hb : s.buf.length + EP_BULK_SIZE ≤ CFG_TUD_MIDI_RX_BUFSIZE := by
        unfold OutInv available_read at h
        simpa [hg.1] using h
      have hp := hg.2
      simp only [List.length_append]
      omega
    · exact h
  | drain n =>
    show OutInv { buf := s.buf.drop n, armed := outRearm (s.buf.drop n) }
    refine outInv_of_rearm _ ?_
    rw [List.length_drop]
    omega

lemma outReachable_inv (s : OutEpState) (h : OutReachable s) : OutInv s := by
  induction h with
  | init => exact outInv_init
  | step s e _ ih => exact outInv_step s e ih

/-- Claim C2: encoding the 3-byte MIDI message 0x90 0x3C 0x64 (Note On,
Middle C, velocity 100) on cable 0 produces exactly the wire bytes
0x09 0x90 0x3C 0x64: byte 0 carries cable number 0 in the upper nibble and
CIN 0x9 in the lower nibble. -/
theorem midi_encode_note_on_middle_c :
    midiEncode 0 [0x90, 0x3C, 0x64] = some [0x09, 0x90, 0x3C, 0x64] ∧
      0x09 / 16 = 0 ∧ 0x09 % 16 = 0x9 := by decide

/-- Claim C3: decoding the 4-byte USB-MIDI event packet 0x08 0x80 0x3C 0x00
(cable 0, CIN 0x8) yields exactly the 3-byte MIDI message 0x80 0x3C 0x00
(Note Off). -/
theorem midi_decode_note_off :
    midiDecode [0x08, 0x80, 0x3C, 0x00] = some [0x80, 0x3C, 0x00] := by decide

/-! ## Device-level operations -/

/-- Whole-device state: enumeration machine plus the two bulk endpoint
states it governs. -/
structure Device where
  enum : EnumState
  outEp : OutEpState
  inEp : InEpState
  deriving DecidableEq

/-- Errors visible to the application on the endpoint interface: the
endpoint is inactive (device not configured), or a TX transfer is already
in flight. -/
inductive EpError
  | inactive
  | wouldBlock
  deriving DecidableEq

/-- Modelled from the spec: `submit_write` of spec section 4.3 (missing
TinyUSB `midi_device.c`).  With the endpoints deactivated it reports an
inactive-endpoint error; with a transfer already in flight it returns
WouldBlock and changes nothing; otherwise it copies up to one packet's
worth of data into the TX path and marks the transfer in flight, so at most
one IN transfer is ever outstanding. -/
def submit_write (d : Device) (bytes : List Nat) :
    Device × Except EpError Unit :=
  if d.enum.epActive = false then (d, .error .inactive)
  else if d.inEp.busy then (d, .error .wouldBlock)
  else ({ d with inEp := { txData := bytes.take EP_BULK_SIZE, busy := true } },
    .ok ())

/-- Modelled from the spec: the task-context `read` of spec section 4.3.
With the endpoints deactivated it reports an inactive-endpoint error (never
stale data); otherwise it drains all available bytes without blocking and
re-arms the OUT endpoint now that space is back. -/
def ep_read (d : Device) : Device × Except EpError (List Nat) :=
  if d.enum.epActive = false then (d, .error .inactive)
  else ({ d with outEp := { buf := [], armed := outRearm [] } },
    .ok d.outEp.buf)

/-- Claim C4: a GET_DESCRIPTOR(Device) request (descriptor type 1) in every
enumeration state at least Default is answered with exactly the 18-byte
device descriptor, whose bDeviceClass byte (offset 4) is 0x00 and whose
bMaxPacketSize0 byte (offset 7) is 64, and the state is unchanged. -/
theorem get_descriptor_device_all_states (s : EnumState)
    (h : s.dev = .Default ∨ s.dev = .Addressed ∨ s.dev = .Configured) :
    enumStep s (.setup (.getDescriptor 1)) = (s, .dataResp desc_device) ∧
      desc_device.length = 18 ∧ desc_device.getD 4 0 = 0x00 ∧
      desc_device.getD 7 0 = 64 := by
  refine ⟨?_, by decide, by decide, by decide⟩
  show (if s.dev = .Default ∨ s.dev = .Addressed ∨ s.dev = .Configured then
    match descriptorFor 1 with
    | some bytes => ((s, CtrlResponse.dataResp bytes) : EnumState × CtrlResponse)
    | none => (s, CtrlResponse.stall)
    else (s, CtrlResponse.stall)) = (s, CtrlResponse.dataResp desc_device)
  rw [if_pos h]
  rfl

/-- Witness for C4: GET_DESCRIPTOR(Device) answered in the Default state. -/
theorem get_descriptor_device_all_states_witness :
    enumStep { dev := .Default, suspended := false, epActive := false }
        (.setup (.getDescriptor 1)) =
      ({ dev := .Default, suspended := false, epActive := false },
        .dataResp desc_device) ∧
      desc_device.length = 18 :=
  ⟨(get_descriptor_device_all_states _ (Or.inl rfl)).1,
   (get_descriptor_device_all_states
     { dev := .Default, suspended := false, epActive := false }
     (Or.inl rfl)).2.1⟩

/-- Claim C5: in every reachable state of the Endpoint Transfer Manager,
`available_read` on the bulk OUT endpoint is at most the 64-byte ring
buffer capacity; a packet accepted while armed is appended whole to the
buffer (nothing is overwritten or dropped); when the buffer cannot hold a
further packet the endpoint is un-armed (observable backpressure); and an
un-armed endpoint accepts nothing at all rather than overwriting. -/
theorem available_read_bounded_no_drop (s : OutEpState)
    (h : OutReachable s) :
    available_read s ≤ CFG_TUD_MIDI_RX_BUFSIZE ∧
      (∀ pkt : List Nat, s.armed = true → pkt.length ≤ EP_BULK_SIZE →
        (outStep s (.recv pkt)).buf = s.buf ++ pkt) ∧
      (CFG_TUD_MIDI_RX_BUFSIZE < available_read s + EP_BULK_SIZE →
        s.armed = false) ∧
      (s.armed = false → ∀ pkt : List Nat, outStep s (.recv pkt) = s) := by
  have hinv := outReachable_inv s h
  unfold OutInv at hinv
  refine ⟨?_, ?_, ?_, ?_⟩
  · split at hinv <;> omega
  · intro pkt ha hp
    show (if s.armed ∧ pkt.length ≤ EP_BULK_SIZE then
      { buf := s.buf ++ pkt, armed := outRearm (s.buf ++ pkt) } else s).buf =
      s.buf ++ pkt
    rw [if_pos ⟨ha, hp⟩]
  · intro hfull
    by_contra hb
    rw [Bool.not_eq_false] at hb
    rw [hb, if_pos rfl] at hinv
    omega
  · intro hb pkt
    show (if s.armed ∧ pkt.length ≤ EP_BULK_SIZE then
      { buf := s.buf ++ pkt, armed := outRearm (s.buf ++ pkt) } else s) = s
    rw [if_neg]
    intro hc
    rw [hb] at hc
    exact Bool.false_ne_true hc.1

/-- Witness for C5: the freshly activated OUT endpoint is reachable and
satisfies the bound, and a 4-byte packet received there is appended
whole. -/
theorem available_read_bounded_no_drop_witness :
    available_read outInit ≤ CFG_TUD_MIDI_RX_BUFSIZE ∧
      (outStep outInit (.recv [0x08, 0x80, 0x3C, 0x00])).buf =
        outInit.buf ++ [0x08, 0x80, 0x3C, 0x00] :=
  ⟨(available_read_bounded_no_drop outInit OutReachable.init).1,
   (available_read_bounded_no_drop outInit OutReachable.init).2.1
     [0x08, 0x80, 0x3C, 0x00] rfl (by decide)⟩

/-- Claim C6: Addressed is reachable from Default only via SET_ADDRESS (no
other event moves Default to Addressed); SET_CONFIGURATION(0) from a
configured state returns to Addressed with the bulk endpoints deactivated;
and on a device whose endpoints are deactivated every subsequent endpoint
write or read returns the inactive-endpoint error instead of touching any
data. -/
theorem config_zero_returns_addressed (s : EnumState)
    (hc : s.dev = .Configured) :
    (∀ (s0 : EnumState) (e : DcdEvent), s0.dev = .Default →
        (enumStep s0 e).1.dev = .Addressed →
        ∃ a, e = .setup (.setAddress a)) ∧
      ((enumStep s (.setup (.setConfiguration 0))).1.dev = .Addressed ∧
        (enumStep s (.setup (.setConfiguration 0))).1.epActive = false) ∧
      (∀ (d : Device) (bytes : List Nat), d.enum.epActive = false →
        (submit_write d bytes).2 = .error .inactive ∧
          (ep_read d).2 = .error .inactive ∧
          (submit_write d bytes).1 = d ∧ (ep_read d).1 = d) := by
  refine ⟨?_, ?_, ?_⟩
  · intro s0 e hdef hA
    cases e with
    | busReset => simp [enumStep] at hA
    | suspendSig => rw [show (enumStep s0 .suspendSig).1.dev = s0.dev from rfl,
        hdef] at hA; exact absurd hA (by simp)
    | resumeSig => rw [show (enumStep s0 .resumeSig).1.dev = s0.dev from rfl,
        hdef] at hA; exact absurd hA (by simp)
    | setup req =>
      cases req with
      | getDescriptor t =>
        exfalso
        have hne : (enumStep s0 (.setup (.getDescriptor t))).1.dev = s0.dev := by
          show (if s0.dev = .Default ∨ s0.dev = .Addressed ∨ s0.dev = .Configured
            then match descriptorFor t with
              | some bytes => (s0, CtrlResponse.dataResp bytes)
              | none => (s0, .stall)
            else (s0, .stall)).1.dev = s0.dev
          split
          · cases descriptorFor t <;> rfl
          · rfl
        rw [hne, hdef] at hA
        exact absurd hA (by simp)
      | setAddress a => exact ⟨a, rfl⟩
      | setConfiguration c =>
        exfalso
        have hne : (enumStep s0 (.setup (.setConfiguration c))).1.dev = s0.dev := by
          show (if s0.dev = .Addressed ∨ s0.dev = .Configured then
            if c = 0 then ({ s0 with dev := .Addressed, epActive := false },
              CtrlResponse.ack)
            else ({ s0 with dev := .Configured, epActive := true }, .ack)
            else (s0, .stall)).1.dev = s0.dev
          rw [if_neg]
          rintro (hx | hx) <;> rw [hdef] at hx <;> exact DevState.noConfusion hx
        rw [hne, hdef] at hA
        exact absurd hA (by simp)
      | unknownRequest b => simp [enumStep, hdef] at hA
  · have hstep : enumStep s (.setup (.setConfiguration 0)) =
        ({ s with dev := .Addressed, epActive := false }, .ack) := by
      show (if s.dev = .Addressed ∨ s.dev = .Configured then
        if (0 : Nat) = 0 then ({ s with dev := .Addressed, epActive := false },
          CtrlResponse.ack)
        else ({ s with dev := .Configured, epActive := true }, .ack)
        else (s, .stall)) =
        ({ s with dev := .Addressed, epActive := false }, .ack)
      rw [if_pos (Or.inr hc), if_pos rfl]
    rw [hstep]
    exact ⟨rfl, rfl⟩
  · intro d bytes hoff
    exact ⟨by simp [submit_write, hoff], by simp [ep_read, hoff],
      by simp [submit_write, hoff], by simp [ep_read, hoff]⟩

/-- Witness for C6: applied to a concrete Configured state,
SET_CONFIGURATION(0) lands in Addressed with endpoints inactive. -/
theorem config_zero_returns_addressed_witness :
    (enumStep { dev := .Configured, suspended := false, epActive := true }
        (.setup (.setConfiguration 0))).1.dev = .Addressed ∧
      (enumStep { dev := .Configured, suspended := false, epActive := true }
        (.setup (.setConfiguration 0))).1.epActive = false :=
  (config_zero_returns_addressed
    { dev := .Configured, suspended := false, epActive := true } rfl).2.1

/-- Claim C7: a control request with an unrecognized bRequest value, in any
enumeration state, is answered with a protocol STALL on the control
endpoint and the enumeration state is left unchanged; the stall is the
entire response. -/
theorem unknown_request_stalls (s : EnumState) (bRequest : Nat) :
    enumStep s (.setup (.unknownRequest bRequest)) = (s, .stall) := rfl

/-- Claim C8: on a bulk IN endpoint with a transfer already in flight, a
second `submit_write` returns WouldBlock and leaves the whole device state,
in particular the in-flight transfer's staged data, unmodified; and
`submit_write` is the only way a transfer starts, so whenever it does start
the endpoint was idle (at most one outstanding IN transfer). -/
theorem submit_write_would_block (d : Device) (bytes : List Nat)
    (hactive : d.enum.epActive = true) (hbusy : d.inEp.busy = true) :
    (submit_write d bytes).2 = .error .wouldBlock ∧
      (submit_write d bytes).1 = d ∧
      (submit_write d bytes).1.inEp.txData = d.inEp.txData ∧
      (∀ (d0 : Device) (b0 : List Nat),
        d0.inEp.busy = false → d0.enum.epActive = true →
        (submit_write d0 b0).2 = .ok () ∧
          (submit_write d0 b0).1.inEp.busy = true) := by
  refine ⟨?_, ?_, ?_, ?_⟩
  · simp [submit_write, hactive, hbusy]
  · simp [submit_write, hactive, hbusy]
  · simp [submit_write, hactive, hbusy]
  · intro d0 b0 hidle hact
    constructor <;> simp [submit_write, hidle, hact]

/-- Witness for C8: a concrete configured device with an in-flight transfer
refuses a second write with WouldBlock and keeps its staged bytes. -/
theorem submit_write_would_block_witness :
    (submit_write
      { enum := { dev := .Configured, suspended := false, epActive := true },
        outEp := outInit,
        inEp := { txData := [0x09, 0x90, 0x3C, 0x64], busy := true } }
      [0x08, 0x80, 0x3C, 0x00]).2 = .error .wouldBlock ∧
      (submit_write
        { enum := { dev := .Configured, suspended := false, epActive := true },
          outEp := outInit,
          inEp := { txData := [0x09, 0x90, 0x3C, 0x64], busy := true } }
        [0x08, 0x80, 0x3C, 0x00]).1.inEp.txData = [0x09, 0x90, 0x3C, 0x64] :=
  ⟨(submit_write_would_block _ _ rfl rfl).1,
   (submit_write_would_block
     { enum := { dev := .Configured, suspended := false, epActive := true },
       outEp := outInit,
       inEp := { txData := [0x09, 0x90, 0x3C, 0x64], busy := true } }
     [0x08, 0x80, 0x3C, 0x00] rfl rfl).2.2.1⟩

/-! ## Protocol core runs and the millisecond clock -/

/-- Inputs consumed by the protocol core in one iteration: a DCD event, a
received bulk OUT packet, or an application call on the endpoint
interface. -/
inductive CoreInput
  | dcd (e : DcdEvent)
  | recvPacket (pkt : List Nat)
  | appWrite (bytes : List Nat)
  | appRead
  deriving DecidableEq

/-- Everything the protocol core emits: control responses, results of the
endpoint interface calls, or nothing. -/
inductive CoreOutput
  | ctrl (r : CtrlResponse)
  | writeRes (r : Except EpError Unit)
  | readRes (r : Except EpError (List Nat))
  | quiet

/-- Modelled from the spec: one protocol-core step (missing TinyUSB
`usbd.c` / `midi_device.c`).  DCD events drive the enumeration machine;
whenever the endpoints are inactive after the event they are reset to their
activation state (bus reset and SET_CONFIGURATION(0) flush the buffers),
and the first activation initializes them; a received OUT packet goes
through the transfer manager while configured; application write and read
go through the endpoint interface.  Note the step consumes no clock. -/
def devStep (d : Device) (i : CoreInput) : Device × CoreOutput :=
  match i with
  | .dcd e =>
    let p := enumStep d.enum e
    if p.1.epActive then
      if d.enum.epActive then ({ d with enum := p.1 }, .ctrl p.2)
      else ({ enum := p.1, outEp := outInit, inEp := inInit }, .ctrl p.2)
    else ({ enum := p.1, outEp := outInit, inEp := inInit }, .ctrl p.2)
  | .recvPacket pkt =>
    if d.enum.epActive then
      ({ d with outEp := outStep d.outEp (.recv pkt) }, .quiet)
    else (d, .quiet)
  | .appWrite bytes =>
    let p := submit_write d bytes
    (p.1, .writeRes p.2)
  | .appRead =>
    let p := ep_read d
    (p.1, .readRes p.2)

/-- Modelled from the spec: a run of the protocol core over an input trace.
The run is handed the millisecond clock interface (`tusb_time_millis_api`
values indexed by iteration), mirroring that the interface is available to
the stack, but per spec section 6 the core itself does not consume it. -/
def coreRun (clock : Nat → Nat) (d : Device) : List CoreInput → List CoreOutput
  | [] => []
  | i :: is => (devStep d i).2 :: coreRun clock (devStep d i).1 is

/-- Application state of `midi_task` in `main.c` (quoted in documentation
step 10): the last send timestamp and the Note On/Off toggle. -/
structure AppState where
  start_ms : Nat
  note_on : Bool
  deriving DecidableEq

/-- The demonstration application's `midi_task` timing logic from `main.c`:
once the tick counter has advanced past 1000 ms it emits the next Note
On/Off message (status 0x90 or 0x80, note 60, velocity 100 or 0) and
toggles; otherwise it emits nothing. -/
def midi_task (tick : Nat) (a : AppState) : AppState × Option (List Nat) :=
  if tick - a.start_ms > 1000 then
    ({ start_ms := tick, note_on := !a.note_on },
      some (if a.note_on then [0x80, 60, 0] else [0x90, 60, 100]))
  else (a, none)

/-- Claim C9: the protocol core's behaviour does not depend on the
millisecond clock: two core runs over the same input trace that differ only
in the tick values produce identical outputs (enumeration responses,
endpoint transfer results, packets); while the demonstration application's
`midi_task` does depend on the tick, which is where the clock's only
influence lies. -/
theorem coreRun_clock_independent :
    (∀ (clock1 clock2 : Nat → Nat) (d : Device) (ins : List CoreInput),
        coreRun clock1 d ins = coreRun clock2 d ins) ∧
      (∃ (t1 t2 : Nat) (a : AppState), midi_task t1 a ≠ midi_task t2 a) := by
  constructor
  · intro clock1 clock2 d ins
    induction ins generalizing d with
    | nil => rfl
    | cons i is ih => simp only [coreRun]; rw [ih]
  · exact ⟨0, 1001, { start_ms := 0, note_on := false }, by decide⟩

/-! ## TinyUSB port layer, from `Core/Src/tusb_port.c` -/

/-- Observable platform state threaded through the port layer: the HAL
SysTick millisecond counter, the LED on PA5, and the remaining hardware
modelled abstractly as a register file. -/
structure SysState where
  tickMs : Nat
  ledPA5 : Bool
  hwRegs : Nat → Nat

/-- `HAL_GetTick` from the STM32 HAL: milliseconds since boot, read from
the SysTick-maintained counter. -/
def HAL_GetTick (s : SysState) : Nat := s.tickMs

/-- `tusb_hal_init` from `Core/Src/tusb_port.c`: its body is empty because
USB hardware initialization was already done by `HAL_PCD_Init`, so it is
the identity on the platform state. -/
def tusb_hal_init (s : SysState) : SysState := s

/-- `tusb_time_millis_api` from `Core/Src/tusb_port.c`: returns
`HAL_GetTick()`. -/
def tusb_time_millis_api (s : SysState) : Nat := HAL_GetTick s

/-- Claim C10: the platform initialization hook `tusb_hal_init` is a no-op:
it leaves every component of the program and hardware state (tick counter,
LED, hardware registers) unchanged, and in particular the clock readings
before and after it agree. -/
theorem tusb_hal_init_noop (s : SysState) :
    tusb_hal_init s = s ∧
      (tusb_hal_init s).tickMs = s.tickMs ∧
      (tusb_hal_init s).ledPA5 = s.ledPA5 ∧
      (tusb_hal_init s).hwRegs = s.hwRegs ∧
      tusb_time_millis_api (tusb_hal_init s) = tusb_time_millis_api s :=
  ⟨rfl, rfl, rfl, rfl, rfl⟩

end UsbMidi
